import Mathlib

/-!
Shallow embedding of the bledger signing core: the U2F transport adapter and
the Ledger transaction-input model of `src/lib/devices/u2f.js`, plus the
output-finalization step exercised by the test suite.  Buffers are lists of
byte values (`Nat`, reduced mod 256 where the code writes into a `Buffer`),
thrown JS errors are `Except LedgerError`, and the mutable caches of
`LedgerTXInput` are explicit state: every caching accessor returns its value
together with the updated state.
-/

namespace Bledger

/-- Error taxonomy of the protocol layer.  `InvalidInput` carries the
assertion message naming the offending field (the `bsert` messages of
`LedgerTXInput.fromOptions`); `MissingKey` is the `LedgerError` thrown by
`getRing` without a public key; `Unsupported` the `LedgerError` thrown by
`U2FDevice.enforceSupport`. -/
inductive LedgerError where
  | InvalidInput (msg : String)
  | MissingKey
  | Unsupported
deriving DecidableEq, Repr

/-- Script of the bcoin data-model boundary: raw byte code. -/
structure Script where
  raw : List Nat
deriving DecidableEq, Repr

/-- Sighash-type constant `Script.hashType.ALL` of bcoin (value 1), the
device's implicit default. -/
def Script.hashType.ALL : Int := 1

/-- Sighash-type constant `Script.hashType.NONE` of bcoin (value 2). -/
def Script.hashType.NONE : Int := 2

/-- Transaction output of the bcoin data-model boundary. -/
structure Output where
  value : Nat
  script : Script
deriving DecidableEq, Repr

/-- Structured transaction record of the bcoin data-model boundary:
identifying hash plus the ordered outputs. -/
structure TX where
  hash : List Nat
  outputs : List Output
deriving DecidableEq, Repr

/-- Networks of the bcoin boundary; `Network.primary` is `main`. -/
inductive Network where
  | main
  | testnet
deriving DecidableEq, Repr

/-- The default network, bcoin's `Network.primary`. -/
def Network.primary : Network := .main

/-- bcoin `Outpoint.fromTX(tx, index).toKey()`: the canonical key of the
(transaction, output-index) pair, modelled by that pair. -/
def Outpoint.toKey (tx : TX) (index : Nat) : List Nat × Nat :=
  (tx.hash, index)

/-- bcoin `Coin` (external collaborator): the spendable-coin view built by
`Coin.fromTX`, modelled by the fields that determine it. -/
structure Coin where
  hash : List Nat
  index : Nat
  height : Nat
  output : Option Output
deriving DecidableEq, Repr

/-- bcoin `Coin.fromTX(tx, index, height)`. -/
def Coin.fromTX (tx : TX) (index : Nat) (height : Nat) : Coin :=
  { hash := tx.hash, index := index, height := height,
    output := tx.outputs[index]? }

/-- bcoin `KeyRing` (external collaborator): verification/signing key
handle; `script` is `null` until assigned. -/
structure KeyRing where
  publicKey : List Nat
  network : Network
  script : Option Script
deriving DecidableEq, Repr

/-- bcoin `KeyRing.fromPublic(publicKey, network)`: a ring with no script. -/
def KeyRing.fromPublic (publicKey : List Nat) (network : Network) : KeyRing :=
  { publicKey := publicKey, network := network, script := none }

/-- Helper `isU32` of the source: `(value >>> 0) === value`, true on a JS
number exactly when it is an integer representable as a uint32. -/
def isU32 (value : Int) : Bool :=
  decide (0 ≤ value) && decide (value < 4294967296)

/-- State of a `LedgerTXInput` once constructed: the underlying fields set
by `fromOptions` plus the four caches `_ring`, `_coin`, `_key`, `_prev`.
The JS empty-string sentinel of `_key` and the `null` sentinels of the
other caches are `none`. -/
structure LedgerTXInput where
  path : List Nat
  tx : TX
  index : Nat
  redeem : Option Script
  type : Int
  publicKey : Option (List Nat)
  _ring : Option KeyRing
  _coin : Option Coin
  _key : Option (List Nat × Nat)
  _prev : Option Script
deriving DecidableEq, Repr

/-- Caller-supplied options object for `LedgerTXInput.fromOptions`; `none`
is an absent (or `null`) property.  A string `path` is parsed into the
array form by the external `util.parsePath` before the array assertions
run, and a `Buffer` `tx` is decoded by the external `TX.fromRaw`, so the
parsed forms are what the modelled checks see; `redeem` and `publicKey`
carry the `Script`/`Buffer` types their assertions demand. -/
structure TXIOptions where
  path : Option (List Nat)
  tx : Option TX
  index : Option Int
  type : Option Int
  redeem : Option Script
  publicKey : Option (List Nat)
deriving DecidableEq, Repr

/-- Static `LedgerTXInput.fromOptions`: runs the constructor defaults and
then the `fromOptions` assertions in source order.  Note `assert
(options.path)` is a JS truthiness test, which an empty array passes, and
the only index checks are `typeof === number` and `isU32`. -/
def LedgerTXInput.fromOptions (o : TXIOptions) : Except LedgerError LedgerTXInput :=
  match o.path with
  | none => .error (.InvalidInput "Path is required.")
  | some path =>
    match o.tx with
    | none => .error (.InvalidInput "Tx is required.")
    | some tx =>
      match o.index with
      | none => .error (.InvalidInput "Output index is required.")
      | some index =>
        if isU32 index then
          if o.type = some Script.hashType.ALL then
            .error (.InvalidInput "Ledger only supports SIGHASH_ALL")
          else
            .ok { path := path, tx := tx, index := index.toNat,
                  redeem := o.redeem,
                  type := o.type.getD Script.hashType.ALL,
                  publicKey := o.publicKey,
                  _ring := none, _coin := none, _key := none, _prev := none }
        else
          .error (.InvalidInput "Output index must be a uint32.")

/-- `LedgerTXInput.toKey`: outpoint key of the prevout, cached in `_key`. -/
def LedgerTXInput.toKey (s : LedgerTXInput) : (List Nat × Nat) × LedgerTXInput :=
  match s._key with
  | some key => (key, s)
  | none =>
    let key := Outpoint.toKey s.tx s.index
    (key, { s with _key := some key })

/-- `LedgerTXInput.getPrev`: script of `tx.outputs[index]`, cached in
`_prev`; `none` models the JS lookup failing on an out-of-range index. -/
def LedgerTXInput.getPrev (s : LedgerTXInput) : Option Script × LedgerTXInput :=
  match s._prev with
  | some prev => (some prev, s)
  | none =>
    match s.tx.outputs[s.index]? with
    | some output => (some output.script, { s with _prev := some output.script })
    | none => (none, s)

/-- `LedgerTXInput.getCoin(height = 0)`: the synthesized coin, computed by
`Coin.fromTX(this.tx, this.index, height)` only when `_coin` is unset. -/
def LedgerTXInput.getCoin (s : LedgerTXInput) (height : Nat := 0) :
    Coin × LedgerTXInput :=
  match s._coin with
  | some coin => (coin, s)
  | none =>
    let coin := Coin.fromTX s.tx s.index height
    (coin, { s with _coin := some coin })

/-- `LedgerTXInput.getRing(network = Network.primary)`: throws without a
public key; otherwise builds the ring once, assigning the redeem script
when present, and caches it in `_ring`. -/
def LedgerTXInput.getRing (s : LedgerTXInput) (network : Network := Network.primary) :
    Except LedgerError (KeyRing × LedgerTXInput) :=
  match s.publicKey with
  | none => .error .MissingKey
  | some publicKey =>
    match s._ring with
    | some ring => .ok (ring, s)
    | none =>
      let ring0 := KeyRing.fromPublic publicKey network
      let ring := match s.redeem with
        | some redeem => { ring0 with script := some redeem }
        | none => ring0
      .ok (ring, { s with _ring := some ring })

/-- `LedgerTXInput.refresh`: clears the four caches. -/
def LedgerTXInput.refresh (s : LedgerTXInput) : LedgerTXInput :=
  { s with _coin := none, _ring := none, _key := none, _prev := none }

/-- `wrapAPDU(apdu, key)` of u2f.js: byte-wise XOR of the APDU against the
scramble key repeated cyclically; each byte is written back into a
`Buffer`, hence the reduction mod 256. -/
def wrapAPDU (apdu : List Nat) (key : List Nat) : List Nat :=
  (List.range apdu.length).map
    (fun i => (apdu.getD i 0 ^^^ key.getD (i % key.length) 0) % 256)

/-- Static `U2FDevice.isSupported`: delegates to the external u2f-api
probe, whose outcome is the `probe` parameter. -/
def U2FDevice.isSupported (probe : Bool) : Bool :=
  probe

/-- Static `U2FDevice.enforceSupport`: throws `Unsupported` exactly when
the probe is negative. -/
def U2FDevice.enforceSupport (probe : Bool) : Except LedgerError Unit :=
  if U2FDevice.isSupported probe then .ok () else .error .Unsupported

/-- `U2FDevice.open`: its whole body is `await U2FDevice.enforceSupport()`. -/
def U2FDevice.«open» (probe : Bool) : Except LedgerError Unit :=
  U2FDevice.enforceSupport probe

/-- Modelled from the spec: `hashOutputFinalize` lives in `lib/bcoin.js`,
which is absent from the source files (only its test harness is present).
Per the spec the engine issues one finalize command per output and
accumulates the per-output approval-required flags as an ordered sequence,
one boolean per output, in output order; each flag is read from the
device's response to that output's finalize command (`responses i` being
the response payload for output `i`, its lead byte the flag). -/
def hashOutputFinalize (tx : TX) (responses : Nat → List Nat) : List Bool :=
  (List.range tx.outputs.length).map
    (fun i => decide ((responses i).getD 0 0 ≠ 0))

/-!
Concrete fixtures used by witnesses.
-/

/-- A two-output sample transaction. -/
def sampleTX : TX :=
  { hash := [1, 2], outputs := [{ value := 5, script := ⟨[81]⟩ }, { value := 7, script := ⟨[82]⟩ }] }

/-- A transaction with no outputs. -/
def emptyTX : TX :=
  { hash := [9], outputs := [] }

/-- Options with neither public key nor redeem script. -/
def sampleOptions : TXIOptions :=
  { path := some [2147483692], tx := some sampleTX, index := some 0,
    type := none, redeem := none, publicKey := none }

/-- The input `sampleOptions` constructs. -/
def sampleInput : LedgerTXInput :=
  { path := [2147483692], tx := sampleTX, index := 0, redeem := none,
    type := Script.hashType.ALL, publicKey := none,
    _ring := none, _coin := none, _key := none, _prev := none }

/-- Options carrying a public key, a redeem script and a non-default type. -/
def sampleKeyedOptions : TXIOptions :=
  { path := some [0], tx := some sampleTX, index := some 1,
    type := some Script.hashType.NONE, redeem := some ⟨[169]⟩,
    publicKey := some [3, 3] }

/-- The input `sampleKeyedOptions` constructs. -/
def sampleKeyedInput : LedgerTXInput :=
  { path := [0], tx := sampleTX, index := 1, redeem := some ⟨[169]⟩,
    type := Script.hashType.NONE, publicKey := some [3, 3],
    _ring := none, _coin := none, _key := none, _prev := none }

/-!
Helper lemmas.
-/

/-- Successful construction characterised: exactly the checks `fromOptions`
runs, and the state it returns. -/
theorem fromOptions_ok_iff (o : TXIOptions) (s : LedgerTXInput) :
    LedgerTXInput.fromOptions o = .ok s ↔
      ∃ path tx index, o.path = some path ∧ o.tx = some tx ∧ o.index = some index ∧
        isU32 index = true ∧ o.type ≠ some Script.hashType.ALL ∧
        s = { path := path, tx := tx, index := index.toNat, redeem := o.redeem,
              type := o.type.getD Script.hashType.ALL, publicKey := o.publicKey,
              _ring := none, _coin := none, _key := none, _prev := none } := by
  rcases o with ⟨p, t, i, ty, r, pk⟩
  cases p <;> cases t <;> cases i <;>
    simp only [LedgerTXInput.fromOptions] <;> try simp
  constructor
  · intro h
    split at h
    · split at h
      · cases h
      · rename_i hU hty
        refine ⟨hU, fun hcontra => hty (by simp [hcontra]), ?_⟩
        cases h
        rfl
    · cases h
  · rintro ⟨hU, hty, rfl⟩
    simp only [hU, if_true]
    split
    · rename_i hcontra
      exact absurd hcontra (by simpa using hty)
    · rfl

/-- Fields of a successfully constructed input: `redeem`, `type` and
`publicKey` come from the options and every cache starts empty. -/
theorem fromOptions_ok_fields (o : TXIOptions) (s : LedgerTXInput)
    (h : LedgerTXInput.fromOptions o = .ok s) :
    s.redeem = o.redeem ∧ s.type = o.type.getD Script.hashType.ALL ∧
    s.publicKey = o.publicKey ∧ s._ring = none ∧ s._coin = none ∧
    s._key = none ∧ s._prev = none := by
  rcases (fromOptions_ok_iff o s).mp h with ⟨path, tx, index, _, _, _, _, _, rfl⟩
  exact ⟨rfl, rfl, rfl, rfl, rfl, rfl, rfl⟩

/-- Position lemma for `wrapAPDU`: within bounds, the output byte is the XOR
of the input byte with the cyclically indexed key byte, reduced mod 256. -/
theorem wrapAPDU_getD (apdu key : List Nat) (i : Nat) (hi : i < apdu.length) :
    (wrapAPDU apdu key).getD i 0 =
      (apdu.getD i 0 ^^^ key.getD (i % key.length) 0) % 256 := by
  unfold wrapAPDU
  rw [List.getD_eq_getElem?_getD, List.getElem?_map, List.getElem?_range hi]
  rfl

/-- `wrapAPDU` preserves the buffer length. -/
theorem wrapAPDU_length (apdu key : List Nat) :
    (wrapAPDU apdu key).length = apdu.length := by
  simp [wrapAPDU]

/-- In-bounds `getD` is the element itself. -/
theorem getD_eq_getElem_of_lt (l : List Nat) (i : Nat) (h : i < l.length) :
    l.getD i 0 = l[i] := by
  rw [List.getD_eq_getElem?_getD, List.getElem?_eq_getElem h]
  rfl

/-- A list of bytes has byte-sized entries at every in-bounds `getD`. -/
theorem getD_lt_256 (l : List Nat) (hl : ∀ b ∈ l, b < 256) (i : Nat)
    (h : i < l.length) : l.getD i 0 < 256 := by
  rw [getD_eq_getElem_of_lt l i h]
  exact hl _ (List.getElem_mem h)

/-!
The claims.
-/

/-- Claim C1: constructing a `SigningInput` through
`LedgerTXInput.fromOptions` with the device's implicit default sighash type
(`SIGHASH_ALL`) supplied explicitly as `options.type` is rejected, failing
with `InvalidInput`. -/
theorem claim_C1_default_sighash_rejected (o : TXIOptions)
    (h : o.type = some Script.hashType.ALL) :
    ∃ msg, LedgerTXInput.fromOptions o = .error (.InvalidInput msg) := by
  rcases o with ⟨p, t, i, ty, r, pk⟩
  have h' : ty = some Script.hashType.ALL := h
  subst h'
  cases p with
  | none => exact ⟨"Path is required.", rfl⟩
  | some p =>
    cases t with
    | none => exact ⟨"Tx is required.", rfl⟩
    | some t =>
      cases i with
      | none => exact ⟨"Output index is required.", rfl⟩
      | some i =>
        cases hU : isU32 i with
        | true =>
          exact ⟨"Ledger only supports SIGHASH_ALL",
            by simp [LedgerTXInput.fromOptions, hU]⟩
        | false =>
          exact ⟨"Output index must be a uint32.",
            by simp [LedgerTXInput.fromOptions, hU]⟩

/-- Witness for claim C1 at a concrete options object. -/
theorem claim_C1_witness :
    ∃ msg, LedgerTXInput.fromOptions
      { path := some [0], tx := some sampleTX, index := some 0,
        type := some Script.hashType.ALL, redeem := none, publicKey := none } =
      .error (.InvalidInput msg) :=
  claim_C1_default_sighash_rejected _ rfl

/-- Claim C2 counterexample: an options object whose derivation path is the
empty array and whose `index` (0) is not below the source transaction's
output count (0) is accepted by `fromOptions`, so neither of those
invariants is validated. -/
theorem claim_C2_counterexample :
    LedgerTXInput.fromOptions
      { path := some [], tx := some emptyTX, index := some 0,
        type := none, redeem := none, publicKey := none } =
    .ok { path := [], tx := emptyTX, index := 0, redeem := none,
          type := Script.hashType.ALL, publicKey := none,
          _ring := none, _coin := none, _key := none, _prev := none } := rfl

/-- Claim C2 as amended: construction validates eagerly that a path is
present, a transaction is present, the output index is a number fitting a
uint32, and an explicit sighash type differs from the default, failing with
`InvalidInput` (naming the field) otherwise; path non-emptiness and the
output-index bound are not checked. -/
theorem claim_C2_amended_validation (o : TXIOptions) :
    ((∃ s, LedgerTXInput.fromOptions o = .ok s) ↔
      (o.path.isSome ∧ o.tx.isSome ∧
        (∃ i, o.index = some i ∧ isU32 i = true) ∧
        o.type ≠ some Script.hashType.ALL)) ∧
    (∀ e, LedgerTXInput.fromOptions o = .error e →
      ∃ msg, e = .InvalidInput msg) := by
  constructor
  · constructor
    · rintro ⟨s, hs⟩
      rcases (fromOptions_ok_iff o s).mp hs with
        ⟨path, tx, index, hp, ht, hi, hU, hty, rfl⟩
      exact ⟨by simp [hp], by simp [ht], ⟨index, hi, hU⟩, hty⟩
    · rintro ⟨hp, ht, ⟨i, hi, hU⟩, hty⟩
      rcases Option.isSome_iff_exists.mp hp with ⟨path, hpath⟩
      rcases Option.isSome_iff_exists.mp ht with ⟨tx, htx⟩
      exact ⟨_, (fromOptions_ok_iff o _).mpr
        ⟨path, tx, i, hpath, htx, hi, hU, hty, rfl⟩⟩
  · intro e he
    rcases o with ⟨p, t, i, ty, r, pk⟩
    cases p <;> cases t <;> cases i <;>
      simp only [LedgerTXInput.fromOptions] at he
    · exact ⟨_, (Except.error.injEq .. ).mp he.symm⟩
    · exact ⟨_, (Except.error.injEq .. ).mp he.symm⟩
    · exact ⟨_, (Except.error.injEq .. ).mp he.symm⟩
    · exact ⟨_, (Except.error.injEq .. ).mp he.symm⟩
    · exact ⟨_, (Except.error.injEq .. ).mp he.symm⟩
    · exact ⟨_, (Except.error.injEq .. ).mp he.symm⟩
    · exact ⟨_, (Except.error.injEq .. ).mp he.symm⟩
    · split at he
      · split at he
        · exact ⟨_, (Except.error.injEq .. ).mp he.symm⟩
        · cases he
      · exact ⟨_, (Except.error.injEq .. ).mp he.symm⟩

/-- Claim C3: `getCoin()` called twice without an intervening `refresh()`
returns the identical cached coin; after `refresh()` the next `getCoin()`
recomputes the coin afresh (with the height it is then given). -/
theorem claim_C3_getCoin_cached (s : LedgerTXInput) (h1 h2 : Nat) :
    ((s.getCoin h1).2.getCoin h2).1 = (s.getCoin h1).1 ∧
    (((s.getCoin h1).2.refresh).getCoin h2).1 = Coin.fromTX s.tx s.index h2 := by
  cases hc : s._coin <;>
    simp [LedgerTXInput.getCoin, LedgerTXInput.refresh, hc]

/-- Claim C4: `getRing()` on an input constructed without a public key fails
with `MissingKey`; constructed with one it returns a ring, whose script is
the supplied redeem script when one was supplied. -/
theorem claim_C4_getRing (o : TXIOptions) (s : LedgerTXInput) (net : Network)
    (h : LedgerTXInput.fromOptions o = .ok s) :
    (o.publicKey = none → s.getRing net = .error .MissingKey) ∧
    (∀ pk, o.publicKey = some pk →
      ∃ ring s2, s.getRing net = .ok (ring, s2) ∧
        (∀ rd, o.redeem = some rd → ring.script = some rd)) := by
  obtain ⟨hrd, -, hpk, hring, -, -, -⟩ := fromOptions_ok_fields o s h
  constructor
  · intro hnone
    simp [LedgerTXInput.getRing, hpk, hnone]
  · intro pk hsome
    cases hr : o.redeem with
    | none =>
      refine ⟨KeyRing.fromPublic pk net,
        { s with _ring := some (KeyRing.fromPublic pk net) }, ?_, by simp [hr]⟩
      simp [LedgerTXInput.getRing, hpk, hsome, hring, hrd, hr]
    | some rd =>
      refine ⟨{ KeyRing.fromPublic pk net with script := some rd },
        { s with _ring := some { KeyRing.fromPublic pk net with script := some rd } },
        ?_, ?_⟩
      · simp [LedgerTXInput.getRing, hpk, hsome, hring, hrd, hr]
      · intro rd' hrd'
        cases hrd'
        rfl

/-- Witness for claim C4 at a concrete constructed input. -/
theorem claim_C4_witness :
    (sampleKeyedOptions.publicKey = none →
      sampleKeyedInput.getRing Network.main = .error .MissingKey) ∧
    (∀ pk, sampleKeyedOptions.publicKey = some pk →
      ∃ ring s2, sampleKeyedInput.getRing Network.main = .ok (ring, s2) ∧
        (∀ rd, sampleKeyedOptions.redeem = some rd → ring.script = some rd)) :=
  claim_C4_getRing sampleKeyedOptions sampleKeyedInput Network.main rfl

/-- Claim C5: `refresh()` clears all four cached derived values and leaves
every underlying field (path, tx, index, redeem, type, publicKey)
unchanged, in every state. -/
theorem claim_C5_refresh_frame (s : LedgerTXInput) :
    s.refresh._coin = none ∧ s.refresh._ring = none ∧ s.refresh._key = none ∧
    s.refresh._prev = none ∧ s.refresh.path = s.path ∧ s.refresh.tx = s.tx ∧
    s.refresh.index = s.index ∧ s.refresh.redeem = s.redeem ∧
    s.refresh.type = s.type ∧ s.refresh.publicKey = s.publicKey := by
  simp [LedgerTXInput.refresh]

/-- Claim C6: `wrapAPDU` is exactly the byte-wise XOR of the payload against
the scramble key repeated cyclically: the output has the input's length and
byte `i` is `apdu[i] XOR key[i mod key.length]`. -/
theorem claim_C6_wrapAPDU_xor (apdu key : List Nat) (hk : key ≠ [])
    (ha : ∀ b ∈ apdu, b < 256) (hb : ∀ b ∈ key, b < 256) :
    (wrapAPDU apdu key).length = apdu.length ∧
    ∀ i < apdu.length,
      (wrapAPDU apdu key).getD i 0 =
        apdu.getD i 0 ^^^ key.getD (i % key.length) 0 := by
  refine ⟨wrapAPDU_length apdu key, fun i hi => ?_⟩
  rw [wrapAPDU_getD apdu key i hi]
  have h256 : (256 : ℕ) = 2 ^ 8 := by norm_num
  have hka : apdu.getD i 0 < 2 ^ 8 := h256 ▸ getD_lt_256 apdu ha i hi
  have hik : i % key.length < key.length :=
    Nat.mod_lt i (List.length_pos.mpr hk)
  have hkk : key.getD (i % key.length) 0 < 2 ^ 8 :=
    h256 ▸ getD_lt_256 key hb _ hik
  exact Nat.mod_eq_of_lt (h256 ▸ Nat.xor_lt_two_pow hka hkk)

/-- Witness for claim C6 at a concrete payload and scramble key. -/
theorem claim_C6_witness :
    (wrapAPDU [0, 128, 255] [170, 1]).length = [0, 128, 255].length ∧
    ∀ i < [0, 128, 255].length,
      (wrapAPDU [0, 128, 255] [170, 1]).getD i 0 =
        [0, 128, 255].getD i 0 ^^^ [170, 1].getD (i % [170, 1].length) 0 :=
  claim_C6_wrapAPDU_xor [0, 128, 255] [170, 1] (by decide) (by decide) (by decide)

/-- Claim C7: `enforceSupport()` fails with `Unsupported` exactly when the
`isSupported()` probe is negative, and `open()` just re-runs the probe: on
an unsupported transport it fails with `Unsupported`, otherwise it succeeds
with no further effect. -/
theorem claim_C7_support_probe (probe : Bool) :
    (U2FDevice.enforceSupport probe = .error .Unsupported ↔
      U2FDevice.isSupported probe = false) ∧
    U2FDevice.«open» probe = U2FDevice.enforceSupport probe ∧
    (U2FDevice.isSupported probe = false →
      U2FDevice.«open» probe = .error .Unsupported) ∧
    (U2FDevice.isSupported probe = true → U2FDevice.«open» probe = .ok ()) := by
  cases probe <;>
    simp [U2FDevice.enforceSupport, U2FDevice.isSupported, U2FDevice.«open»]

/-- Claim C8: for a transaction with M outputs, the output-finalization step
returns the approval-required flags as an ordered sequence with exactly one
boolean per output, in output order (entry i is the flag of output i's
finalize response). -/
theorem claim_C8_finalize_flags (tx : TX) (responses : Nat → List Nat) :
    (hashOutputFinalize tx responses).length = tx.outputs.length ∧
    ∀ i < tx.outputs.length,
      (hashOutputFinalize tx responses).getD i false =
        decide ((responses i).getD 0 0 ≠ 0) := by
  refine ⟨by simp [hashOutputFinalize], fun i hi => ?_⟩
  unfold hashOutputFinalize
  rw [List.getD_eq_getElem?_getD, List.getElem?_map, List.getElem?_range hi]
  rfl

/-- Claim C9: `wrapAPDU` is an involution: applying it twice with the same
non-empty key returns the original payload byte for byte. -/
theorem claim_C9_wrapAPDU_involution (apdu key : List Nat) (hk : key ≠ [])
    (ha : ∀ b ∈ apdu, b < 256) (hb : ∀ b ∈ key, b < 256) :
    wrapAPDU (wrapAPDU apdu key) key = apdu := by
  have hlen1 : (wrapAPDU apdu key).length = apdu.length := wrapAPDU_length ..
  have hlen2 : (wrapAPDU (wrapAPDU apdu key) key).length = apdu.length := by
    rw [wrapAPDU_length, hlen1]
  refine List.ext_getElem hlen2 fun i h1 h2 => ?_
  have hi : i < apdu.length := h2
  have h256 : (256 : ℕ) = 2 ^ 8 := by norm_num
  have hka : apdu.getD i 0 < 2 ^ 8 := h256 ▸ getD_lt_256 apdu ha i hi
  have hik : i % key.length < key.length :=
    Nat.mod_lt i (List.length_pos.mpr hk)
  have hkk : key.getD (i % key.length) 0 < 2 ^ 8 :=
    h256 ▸ getD_lt_256 key hb _ hik
  have hx : apdu.getD i 0 ^^^ key.getD (i % key.length) 0 < 256 :=
    h256 ▸ Nat.xor_lt_two_pow hka hkk
  rw [← getD_eq_getElem_of_lt _ i (hlen2 ▸ h2),
    wrapAPDU_getD _ key i (hlen1 ▸ hi), wrapAPDU_getD apdu key i hi,
    Nat.mod_eq_of_lt hx, Nat.xor_cancel_right, Nat.mod_eq_of_lt (h256 ▸ hka),
    getD_eq_getElem_of_lt apdu i hi]

/-- Witness for claim C9 at a concrete payload and scramble key. -/
theorem claim_C9_witness :
    wrapAPDU (wrapAPDU [1, 2, 3, 250] [90, 165, 7]) [90, 165, 7] = [1, 2, 3, 250] :=
  claim_C9_wrapAPDU_involution [1, 2, 3, 250] [90, 165, 7]
    (by decide) (by decide) (by decide)

/-- Claim C10: the height argument of `getCoin` is honored only on the first
call: on a freshly constructed input, after `getCoin h1`, a later
`getCoin h2` without `refresh()` still returns the coin computed with `h1`. -/
theorem claim_C10_height_first_call (o : TXIOptions) (s : LedgerTXInput)
    (h : LedgerTXInput.fromOptions o = .ok s) (h1 h2 : Nat) :
    ((s.getCoin h1).2.getCoin h2).1 = Coin.fromTX s.tx s.index h1 := by
  obtain ⟨-, -, -, -, hc, -, -⟩ := fromOptions_ok_fields o s h
  simp [LedgerTXInput.getCoin, hc]

/-- Witness for claim C10 at a concrete constructed input and two distinct
heights. -/
theorem claim_C10_witness :
    ((sampleInput.getCoin 3).2.getCoin 7).1 =
      Coin.fromTX sampleInput.tx sampleInput.index 3 :=
  claim_C10_height_first_call sampleOptions sampleInput rfl 3 7

end Bledger
